import Mathlib

/-!
Verification development for the voxaudio repository: a shallow embedding of
the WAV file writer, the PortAudio driver lifecycle guard, the recorder stop
logic, the bounded sample pipes, the device-selection algorithms, the
data-channel send gating, the receive-loop exit paths, and the PCM/base64
send-path encoding, together with theorems settling the spec claims.
-/

namespace VoxAudio

/-! ### Byte-level helpers -/

/-- Little-endian bytes of a 16-bit unsigned value (`binary.Write` of a `uint16`). -/
def u16le (n : Nat) : List Nat := [n % 256, n / 256 % 256]

/-- Little-endian bytes of a 32-bit unsigned value (`binary.Write` of a `uint32`);
for `n ≥ 2^32` this encodes `n % 2^32`, matching Go's `uint32` conversion. -/
def u32le (n : Nat) : List Nat :=
  [n % 256, n / 256 % 256, n / 65536 % 256, n / 16777216 % 256]

/-- Bytes of an ASCII string literal as written by `file.WriteString`. -/
def strBytes (s : String) : List Nat := s.toList.map Char.toNat

/-! ### Audio File Writer (`writeWavHeader` / `updateWavHeader` in part_000) -/

/-- The 44-byte WAV header written by `writeWavHeader`, as the concatenation of
the successive `WriteString` / `binary.Write` calls in the source. -/
def writeWavHeader (sampleRate numChannels bitsPerSample : Nat) : List Nat :=
  strBytes "RIFF" ++ u32le 0 ++ strBytes "WAVE" ++ strBytes "fmt " ++
  u32le 16 ++ u16le 1 ++ u16le numChannels ++ u32le sampleRate ++
  u32le (sampleRate * numChannels * bitsPerSample / 8) ++
  u16le (numChannels * bitsPerSample / 8) ++ u16le bitsPerSample ++
  strBytes "data" ++ u32le 0

/-- `Seek(pos, 0)` followed by writing `bs`: overwrite `bs.length` bytes of
`file` at offset `pos`. -/
def writeAt (file : List Nat) (pos : Nat) (bs : List Nat) : List Nat :=
  file.take pos ++ bs ++ file.drop (pos + bs.length)

/-- `updateWavHeader`: patch offset 40 with `uint32(dataSize)` and offset 4
with `uint32(dataSize + 36)`. -/
def updateWavHeader (file : List Nat) (dataSize : Nat) : List Nat :=
  writeAt (writeAt file 40 (u32le dataSize)) 4 (u32le (dataSize + 36))

/-- Read a little-endian 32-bit field of the file at byte offset `pos`. -/
def readU32le (file : List Nat) (pos : Nat) : Nat :=
  file.getD pos 0 + 256 * file.getD (pos + 1) 0 +
  65536 * file.getD (pos + 2) 0 + 16777216 * file.getD (pos + 3) 0

theorem writeWavHeader_length (sr nc bps : Nat) :
    (writeWavHeader sr nc bps).length = 44 := by
  simp [writeWavHeader, strBytes, u16le, u32le]

theorem length_writeAt (file bs : List Nat) (pos : Nat)
    (h : pos + bs.length ≤ file.length) :
    (writeAt file pos bs).length = file.length := by
  simp only [writeAt, List.length_append, List.length_take, List.length_drop]
  omega

theorem getD_writeAt_inside (file bs : List Nat) (pos i : Nat)
    (hi : i < bs.length) (hp : pos ≤ file.length) :
    (writeAt file pos bs).getD (pos + i) 0 = bs.getD i 0 := by
  have hlen : (file.take pos).length = pos := by
    rw [List.length_take]; omega
  rw [writeAt, List.append_assoc,
    List.getD_append_right _ _ _ _ (by rw [hlen]; omega), hlen]
  have hsub : pos + i - pos = i := by omega
  rw [hsub, List.getD_append _ _ _ _ hi]

theorem getD_writeAt_before (file bs : List Nat) (pos i : Nat)
    (hi : i < pos) (hp : pos ≤ file.length) :
    (writeAt file pos bs).getD i 0 = file.getD i 0 := by
  have hlen : (file.take pos).length = pos := by
    rw [List.length_take]; omega
  rw [writeAt, List.append_assoc, List.getD_append _ _ _ _ (by rw [hlen]; omega)]
  rw [List.getD_eq_getElem?_getD, List.getD_eq_getElem?_getD,
    List.getElem?_take_of_lt hi]

theorem getD_writeAt_after (file bs : List Nat) (pos i : Nat)
    (hi : pos + bs.length ≤ i) (hp : pos + bs.length ≤ file.length) :
    (writeAt file pos bs).getD i 0 = file.getD i 0 := by
  have hlen : (file.take pos).length = pos := by
    rw [List.length_take]; omega
  rw [writeAt, List.append_assoc,
    List.getD_append_right _ _ _ _ (by rw [hlen]; omega), hlen,
    List.getD_append_right _ _ _ _ (by omega)]
  rw [List.getD_eq_getElem?_getD, List.getD_eq_getElem?_getD, List.getElem?_drop]
  have hidx : pos + bs.length + (i - pos - bs.length) = i := by omega
  rw [hidx]

theorem readU32le_writeAt_u32le (file : List Nat) (pos n : Nat)
    (hn : n < 4294967296) (hp : pos + 4 ≤ file.length) :
    readU32le (writeAt file pos (u32le n)) pos = n := by
  have h0 := getD_writeAt_inside file (u32le n) pos 0 (by simp [u32le]) (by omega)
  have h1 := getD_writeAt_inside file (u32le n) pos 1 (by simp [u32le]) (by omega)
  have h2 := getD_writeAt_inside file (u32le n) pos 2 (by simp [u32le]) (by omega)
  have h3 := getD_writeAt_inside file (u32le n) pos 3 (by simp [u32le]) (by omega)
  simp only [Nat.add_zero] at h0
  unfold readU32le
  rw [h0, h1, h2, h3]
  simp only [u32le, List.getD_cons_zero, List.getD_cons_succ]
  omega

theorem readU32le_writeAt_disjoint (file bs : List Nat) (pos p : Nat)
    (h : p + 4 ≤ pos ∨ pos + bs.length ≤ p)
    (hp : pos + bs.length ≤ file.length) :
    readU32le (writeAt file pos bs) p = readU32le file p := by
  have g : ∀ k, k < 4 → (writeAt file pos bs).getD (p + k) 0 = file.getD (p + k) 0 := by
    intro k hk
    rcases h with h | h
    · exact getD_writeAt_before file bs pos (p + k) (by omega) (by omega)
    · exact getD_writeAt_after file bs pos (p + k) (by omega) hp
  have g0 := g 0 (by omega)
  simp only [Nat.add_zero] at g0
  unfold readU32le
  rw [g0, g 1 (by omega), g 2 (by omega), g 3 (by omega)]

/-- C1: `writeWavHeader` first writes the fixed 44-byte RIFF/WAVE header with both
size fields (offsets 4 and 40) as zero placeholders; for any sequence of writes to
the file totaling `D` bytes, `updateWavHeader` (finalize) leaves the 32-bit
little-endian field at offset 40 equal to `D` and the field at offset 4 equal to
`D + 36`. -/
theorem wavHeader_finalize_correct (sr nc bps : Nat) (writes : List (List Nat))
    (hD : writes.flatten.length + 36 < 4294967296) :
    (writeWavHeader sr nc bps).length = 44 ∧
    (writeWavHeader sr nc bps).take 4 = strBytes "RIFF" ∧
    ((writeWavHeader sr nc bps).drop 8).take 4 = strBytes "WAVE" ∧
    readU32le (writeWavHeader sr nc bps) 4 = 0 ∧
    readU32le (writeWavHeader sr nc bps) 40 = 0 ∧
    readU32le (updateWavHeader (writeWavHeader sr nc bps ++ writes.flatten)
      writes.flatten.length) 40 = writes.flatten.length ∧
    readU32le (updateWavHeader (writeWavHeader sr nc bps ++ writes.flatten)
      writes.flatten.length) 4 = writes.flatten.length + 36 := by
  have hlen : (writeWavHeader sr nc bps).length = 44 := writeWavHeader_length sr nc bps
  have hflen : 44 ≤ (writeWavHeader sr nc bps ++ writes.flatten).length := by
    rw [List.length_append, hlen]; omega
  have hlen1 : (writeAt (writeWavHeader sr nc bps ++ writes.flatten) 40
      (u32le writes.flatten.length)).length
      = (writeWavHeader sr nc bps ++ writes.flatten).length :=
    length_writeAt _ _ _ (by simp [u32le]; omega)
  refine ⟨hlen, rfl, rfl, rfl, rfl, ?_, ?_⟩
  · unfold updateWavHeader
    rw [readU32le_writeAt_disjoint _ _ 4 40 (by simp [u32le]) (by rw [hlen1]; simp [u32le]; omega)]
    exact readU32le_writeAt_u32le _ 40 _ (by omega) (by omega)
  · unfold updateWavHeader
    exact readU32le_writeAt_u32le _ 4 _ (by omega) (by rw [hlen1]; omega)

/-- Witness for C1 at sample rate 48000, mono, 16-bit, with writes `[[0,1],[2]]`
totaling 3 data bytes. -/
theorem wavHeader_finalize_correct_witness :
    (writeWavHeader 48000 1 16).length = 44 ∧
    (writeWavHeader 48000 1 16).take 4 = strBytes "RIFF" ∧
    ((writeWavHeader 48000 1 16).drop 8).take 4 = strBytes "WAVE" ∧
    readU32le (writeWavHeader 48000 1 16) 4 = 0 ∧
    readU32le (writeWavHeader 48000 1 16) 40 = 0 ∧
    readU32le (updateWavHeader (writeWavHeader 48000 1 16 ++
      ([[0, 1], [2]] : List (List Nat)).flatten)
      ([[0, 1], [2]] : List (List Nat)).flatten.length) 40
      = ([[0, 1], [2]] : List (List Nat)).flatten.length ∧
    readU32le (updateWavHeader (writeWavHeader 48000 1 16 ++
      ([[0, 1], [2]] : List (List Nat)).flatten)
      ([[0, 1], [2]] : List (List Nat)).flatten.length) 4
      = ([[0, 1], [2]] : List (List Nat)).flatten.length + 36 :=
  wavHeader_finalize_correct 48000 1 16 [[0, 1], [2]] (by norm_num)

/-! ### Driver Lifecycle Guard (`SafePortAudioInit` / `SafePortAudioTerminate`
in portaudio.go).  The mutex serializes all calls, so the guard is modelled as a
sequential state machine; `initCalls` / `termCalls` count the physical
`portaudio.Initialize()` / `portaudio.Terminate()` invocations. -/

structure PAState where
  paInitCount : Int
  initCalls : Nat
  termCalls : Nat
deriving DecidableEq

/-- `SafePortAudioInit`: physical init is attempted only when the counter is 0;
on init failure the error is returned without incrementing the counter.
`initOk` stands for whether `portaudio.Initialize()` succeeds.  The returned
`Bool` is `true` when the call returns `nil`. -/
def SafePortAudioInit (initOk : Bool) (st : PAState) : PAState × Bool :=
  if st.paInitCount = 0 then
    if initOk then
      ({ st with paInitCount := st.paInitCount + 1, initCalls := st.initCalls + 1 }, true)
    else
      ({ st with initCalls := st.initCalls + 1 }, false)
  else
    ({ st with paInitCount := st.paInitCount + 1 }, true)

/-- `SafePortAudioTerminate`: decrement; when the decremented counter is `≤ 0`,
physically terminate and clamp the counter to 0. -/
def SafePortAudioTerminate (st : PAState) : PAState :=
  if st.paInitCount - 1 ≤ 0 then
    { st with paInitCount := 0, termCalls := st.termCalls + 1 }
  else
    { st with paInitCount := st.paInitCount - 1 }

theorem SafePortAudioTerminate_nonneg (st : PAState) :
    0 ≤ (SafePortAudioTerminate st).paInitCount := by
  unfold SafePortAudioTerminate
  split <;> dsimp only <;> omega

/-- `n` successive successful `SafePortAudioInit` calls. -/
def acquireN : Nat → PAState → PAState
  | 0, st => st
  | n + 1, st => acquireN n (SafePortAudioInit true st).1

/-- `n` successive `SafePortAudioTerminate` calls. -/
def releaseN : Nat → PAState → PAState
  | 0, st => st
  | n + 1, st => releaseN n (SafePortAudioTerminate st)

theorem acquireN_of_pos (n : Nat) (c : Int) (i t : Nat) (hc : 0 < c) :
    acquireN n ⟨c, i, t⟩ = ⟨c + n, i, t⟩ := by
  induction n generalizing c with
  | zero => simp [acquireN]
  | succ n ih =>
    have hne : ¬ c = 0 := by omega
    simp only [acquireN, SafePortAudioInit, hne, if_false]
    rw [ih (c + 1) (by omega)]
    congr 1
    push_cast
    omega

theorem releaseN_exact (n : Nat) (i t : Nat) (hn : 1 ≤ n) :
    releaseN n ⟨(n : Int), i, t⟩ = ⟨0, i, t + 1⟩ := by
  induction n with
  | zero => omega
  | succ n ih =>
    rcases Nat.eq_zero_or_pos n with hz | hpos
    · subst hz
      simp [releaseN, SafePortAudioTerminate]
    · have hgt : ¬ ((n : Int) + 1 - 1 ≤ 0) := by omega
      simp only [releaseN, SafePortAudioTerminate, Nat.cast_add, Nat.cast_one, hgt, if_false]
      have heq : ((n : Int) + 1 - 1) = (n : Int) := by omega
      rw [heq]
      exact ih hpos

/-! ### Recorder and session stop (`LoopbackRecorder.Stop` in part_001,
`OutputCaptureRecorder.Stop` in output_capture.go, `Session.Stop` in part_000).
Both recorders' `Stop` bodies are identical: stop/close the stream if present,
close the `Samples` channel only if the `isClosed` flag is unset, then call
`SafePortAudioTerminate` unconditionally.  `closeCalls` counts actual
`close(r.Samples)` invocations; closing an already-closed Go channel panics. -/

structure RecorderState where
  hasStream : Bool
  isClosed : Bool
  closeCalls : Nat
deriving DecidableEq

structure StopResult where
  recSt : RecorderState
  pa : PAState
  panicked : Bool
deriving DecidableEq

def recorderStop (r : RecorderState) (pa : PAState) : StopResult :=
  if r.isClosed then
    { recSt := { r with hasStream := false }
      pa := SafePortAudioTerminate pa
      panicked := false }
  else
    { recSt := { r with hasStream := false, isClosed := true, closeCalls := r.closeCalls + 1 }
      pa := SafePortAudioTerminate pa
      panicked := r.closeCalls != 0 }

/-- `Session.Stop` stop-channel handling: `close(s.stopCh)` happens only when the
field is non-nil, after which the field is set to nil; the recorder is stopped
unconditionally on every call (the `recorder` field is never cleared). -/
structure SessionStopState where
  stopChPresent : Bool
  stopChCloseCalls : Nat
  recSt : RecorderState
  pa : PAState
deriving DecidableEq

def sessionStop (s : SessionStopState) : SessionStopState × Bool :=
  if s.stopChPresent then
    ({ stopChPresent := false
       stopChCloseCalls := s.stopChCloseCalls + 1
       recSt := (recorderStop s.recSt s.pa).recSt
       pa := (recorderStop s.recSt s.pa).pa },
     (recorderStop s.recSt s.pa).panicked)
  else
    ({ stopChPresent := s.stopChPresent
       stopChCloseCalls := s.stopChCloseCalls
       recSt := (recorderStop s.recSt s.pa).recSt
       pa := (recorderStop s.recSt s.pa).pa },
     (recorderStop s.recSt s.pa).panicked)

/-- The recorder state right after `NewLoopbackRecorder` + a successful `Start`,
with the guard acquired once from a fresh process. -/
def startedRecorder : RecorderState := ⟨true, false, 0⟩

def startedPA : PAState := (SafePortAudioInit true ⟨0, 0, 0⟩).1

/-- Counterexample to C2: starting from one acquisition, the first `Stop` already
performs the physical driver teardown, and the second `Stop` is not a no-op on
the Driver Lifecycle Guard — it decrements the counter again and performs a
second physical teardown (`termCalls` reaches 2). -/
theorem double_stop_second_release_counterexample :
    (recorderStop startedRecorder startedPA).pa.termCalls = 1 ∧
    (recorderStop (recorderStop startedRecorder startedPA).recSt
      (recorderStop startedRecorder startedPA).pa).pa.termCalls = 2 ∧
    (recorderStop (recorderStop startedRecorder startedPA).recSt
      (recorderStop startedRecorder startedPA).pa).pa ≠
      (recorderStop startedRecorder startedPA).pa := by
  refine ⟨by decide, by decide, by decide⟩

/-- C2 (amended): calling stop twice on a recorder or a session produces no
panic, never a double-close of the sample-batch channel, never a double-close of
the session stop channel, and the stored counter never goes negative (it is
clamped at 0); however the second stop is not a no-op on the Driver Lifecycle
Guard: each stop unconditionally calls `SafePortAudioTerminate`, so the guard is
released a second time. -/
theorem double_stop_amended (r : RecorderState) (pa : PAState)
    (hsync : r.isClosed = false → r.closeCalls = 0) :
    (recorderStop r pa).panicked = false ∧
    (recorderStop (recorderStop r pa).recSt (recorderStop r pa).pa).panicked = false ∧
    (recorderStop (recorderStop r pa).recSt (recorderStop r pa).pa).recSt.closeCalls
      ≤ r.closeCalls + 1 ∧
    0 ≤ (recorderStop (recorderStop r pa).recSt (recorderStop r pa).pa).pa.paInitCount ∧
    (recorderStop (recorderStop r pa).recSt (recorderStop r pa).pa).pa
      = SafePortAudioTerminate (SafePortAudioTerminate pa) ∧
    (∀ s : SessionStopState, (sessionStop s).1.stopChPresent = false) ∧
    (∀ s : SessionStopState,
      (sessionStop (sessionStop s).1).1.stopChCloseCalls ≤ s.stopChCloseCalls + 1) := by
  have hsession1 : ∀ s : SessionStopState, (sessionStop s).1.stopChPresent = false := by
    intro s
    unfold sessionStop
    split <;> simp_all
  have hsession2 : ∀ s : SessionStopState,
      (sessionStop (sessionStop s).1).1.stopChCloseCalls ≤ s.stopChCloseCalls + 1 := by
    intro s
    by_cases hp : s.stopChPresent
    all_goals simp [sessionStop, hp]
  cases hc : r.isClosed with
  | false =>
    have h0 : r.closeCalls = 0 := hsync hc
    have e1 : recorderStop r pa =
        ⟨⟨false, true, r.closeCalls + 1⟩, SafePortAudioTerminate pa, false⟩ := by
      simp [recorderStop, hc, h0]
    have e2 : recorderStop (⟨false, true, r.closeCalls + 1⟩ : RecorderState)
        (SafePortAudioTerminate pa) =
        ⟨⟨false, true, r.closeCalls + 1⟩,
          SafePortAudioTerminate (SafePortAudioTerminate pa), false⟩ := by
      simp [recorderStop]
    rw [e1]
    dsimp only
    rw [e2]
    exact ⟨rfl, rfl, by dsimp only; omega, SafePortAudioTerminate_nonneg _, rfl,
      hsession1, hsession2⟩
  | true =>
    have e1 : recorderStop r pa =
        ⟨⟨false, true, r.closeCalls⟩, SafePortAudioTerminate pa, false⟩ := by
      simp [recorderStop, hc]
    have e2 : recorderStop (⟨false, true, r.closeCalls⟩ : RecorderState)
        (SafePortAudioTerminate pa) =
        ⟨⟨false, true, r.closeCalls⟩,
          SafePortAudioTerminate (SafePortAudioTerminate pa), false⟩ := by
      simp [recorderStop]
    rw [e1]
    dsimp only
    rw [e2]
    exact ⟨rfl, rfl, by dsimp only; omega, SafePortAudioTerminate_nonneg _, rfl,
      hsession1, hsession2⟩

/-- Witness for C2 (amended): double stop of a freshly started recorder. -/
theorem double_stop_amended_witness :
    (recorderStop startedRecorder startedPA).panicked = false ∧
    (recorderStop (recorderStop startedRecorder startedPA).recSt
      (recorderStop startedRecorder startedPA).pa).panicked = false ∧
    (recorderStop (recorderStop startedRecorder startedPA).recSt
      (recorderStop startedRecorder startedPA).pa).recSt.closeCalls
      ≤ startedRecorder.closeCalls + 1 ∧
    0 ≤ (recorderStop (recorderStop startedRecorder startedPA).recSt
      (recorderStop startedRecorder startedPA).pa).pa.paInitCount ∧
    (recorderStop (recorderStop startedRecorder startedPA).recSt
      (recorderStop startedRecorder startedPA).pa).pa
      = SafePortAudioTerminate (SafePortAudioTerminate startedPA) ∧
    (∀ s : SessionStopState, (sessionStop s).1.stopChPresent = false) ∧
    (∀ s : SessionStopState,
      (sessionStop (sessionStop s).1).1.stopChCloseCalls ≤ s.stopChCloseCalls + 1) :=
  double_stop_amended startedRecorder startedPA (fun _ => rfl)

/-- C4: starting from a fresh process, `N` successful `Acquire` calls followed by
`N` `Release` calls perform exactly one physical init (on the 0→1 transition) and
exactly one physical teardown (when the counter reaches 0); `Release` never
leaves the stored counter negative; and a failed `Acquire` returns the error
without mutating the counter. -/
theorem guard_refcount_correct (N : Nat) (hN : 1 ≤ N) :
    acquireN N ⟨0, 0, 0⟩ = ⟨(N : Int), 1, 0⟩ ∧
    releaseN N (acquireN N ⟨0, 0, 0⟩) = ⟨0, 1, 1⟩ ∧
    (∀ st : PAState, 0 ≤ (SafePortAudioTerminate st).paInitCount) ∧
    (∀ st : PAState, st.paInitCount = 0 →
      (SafePortAudioInit false st).1.paInitCount = st.paInitCount ∧
      (SafePortAudioInit false st).2 = false) := by
  have hone : (SafePortAudioInit true ⟨0, 0, 0⟩).1 = (⟨1, 1, 0⟩ : PAState) := by
    simp [SafePortAudioInit]
  have hacq : acquireN N ⟨0, 0, 0⟩ = ⟨(N : Int), 1, 0⟩ := by
    cases N with
    | zero => omega
    | succ n =>
      show acquireN n (SafePortAudioInit true ⟨0, 0, 0⟩).1 = _
      rw [hone, acquireN_of_pos n 1 1 0 (by omega)]
      congr 1
      push_cast
      omega
  refine ⟨hacq, ?_, ?_, ?_⟩
  · rw [hacq]
    exact releaseN_exact N 1 0 hN
  · exact SafePortAudioTerminate_nonneg
  · intro st hz
    simp [SafePortAudioInit, hz]

/-- Witness for C4 at `N = 2`. -/
theorem guard_refcount_correct_witness :
    acquireN 2 ⟨0, 0, 0⟩ = ⟨(2 : Int), 1, 0⟩ ∧
    releaseN 2 (acquireN 2 ⟨0, 0, 0⟩) = ⟨0, 1, 1⟩ ∧
    (∀ st : PAState, 0 ≤ (SafePortAudioTerminate st).paInitCount) ∧
    (∀ st : PAState, st.paInitCount = 0 →
      (SafePortAudioInit false st).1.paInitCount = st.paInitCount ∧
      (SafePortAudioInit false st).2 = false) :=
  guard_refcount_correct 2 (by norm_num)

/-! ### Bounded Sample Pipe (the `Samples` channel, capacity 1024 in both
recorders) and the stream callbacks that feed it.  A buffered Go channel with no
waiting receiver accepts a send exactly when its buffer is not full. -/

structure Pipe (α : Type) where
  buf : List α
  cap : Nat
deriving DecidableEq

/-- The `LoopbackRecorder.Start` stream callback's offer (part_001): a
`select`/`default` non-blocking send; on a full channel the batch is dropped and
a warning printed.  Returns the new pipe and whether the batch was dropped. -/
def loopbackCallbackOffer (p : Pipe α) (batch : α) : Pipe α × Bool :=
  if p.buf.length < p.cap then
    ({ p with buf := p.buf ++ [batch] }, false)
  else
    (p, true)

/-- The `OutputCaptureRecorder.Start` stream callback's send (output_capture.go
line 119): a plain `r.Samples <- ...` channel send.  With no waiting receiver it
completes only when the buffer is not full; `none` means the producer blocks. -/
def outputCaptureCallbackSend (p : Pipe α) (batch : α) : Option (Pipe α) :=
  if p.buf.length < p.cap then
    some { p with buf := p.buf ++ [batch] }
  else
    none

/-- A `Samples` pipe of the recorders' capacity 1024, completely full. -/
def fullSamplesPipe : Pipe (List ℚ) := ⟨List.replicate 1024 [], 1024⟩

/-- Counterexample to C3: on a full pipe the output-capture recorder's callback
send does not complete — the producer blocks (the claim asserts the offer never
blocks for every recorder, including the output-capture one). -/
theorem outputCapture_callback_blocks_counterexample :
    outputCaptureCallbackSend fullSamplesPipe [] = none ∧
    fullSamplesPipe.buf.length = fullSamplesPipe.cap := by
  have hlen : fullSamplesPipe.buf.length = 1024 := by
    show (List.replicate 1024 ([] : List ℚ)).length = 1024
    rw [List.length_replicate]
  constructor
  · unfold outputCaptureCallbackSend
    rw [if_neg]
    rw [hlen]
    show ¬ (1024 : Nat) < 1024
    omega
  · rw [hlen]
    rfl

/-- C3 (amended): the capture (loopback) recorder's callback offer never blocks:
when the pipe is full the batch is dropped with a warning, the pipe is left
unchanged and the offer is not retried; the output-capture recorder's callback
instead performs a plain blocking send, which blocks exactly when the pipe is
full. -/
theorem callback_offer_amended (p : Pipe (List ℚ)) (batch : List ℚ) :
    ((loopbackCallbackOffer p batch).2 = true ↔ p.cap ≤ p.buf.length) ∧
    (p.cap ≤ p.buf.length → loopbackCallbackOffer p batch = (p, true)) ∧
    (p.buf.length < p.cap →
      loopbackCallbackOffer p batch = ({ p with buf := p.buf ++ [batch] }, false)) ∧
    (outputCaptureCallbackSend p batch = none ↔ p.cap ≤ p.buf.length) := by
  refine ⟨?_, ?_, ?_, ?_⟩
  · unfold loopbackCallbackOffer
    split <;> simp <;> omega
  · intro h
    unfold loopbackCallbackOffer
    rw [if_neg (by omega)]
  · intro h
    unfold loopbackCallbackOffer
    rw [if_pos h]
  · unfold outputCaptureCallbackSend
    split <;> simp <;> omega

/-- Witness for C3 (amended) on the full capacity-1024 pipe. -/
theorem callback_offer_amended_witness :
    ((loopbackCallbackOffer fullSamplesPipe []).2 = true ↔
      fullSamplesPipe.cap ≤ fullSamplesPipe.buf.length) ∧
    loopbackCallbackOffer fullSamplesPipe [] = (fullSamplesPipe, true) ∧
    (outputCaptureCallbackSend fullSamplesPipe [] = none ↔
      fullSamplesPipe.cap ≤ fullSamplesPipe.buf.length) := by
  have hfull : fullSamplesPipe.cap ≤ fullSamplesPipe.buf.length := by
    show (1024 : Nat) ≤ (List.replicate 1024 ([] : List ℚ)).length
    rw [List.length_replicate]
  exact ⟨(callback_offer_amended fullSamplesPipe []).1,
    (callback_offer_amended fullSamplesPipe []).2.1 hfull,
    (callback_offer_amended fullSamplesPipe []).2.2.2⟩

/-! ### Device Catalog and selection (`LoopbackRecorder.Start` in part_001,
`OutputCaptureRecorder.Start` in output_capture.go).  A catalog is the ordered
list of host APIs, each with its ordered device list; the nested loops with
`break` select the first matching device in enumeration order. -/

structure DeviceInfo where
  name : String
  maxInputChannels : Nat
  maxOutputChannels : Nat
deriving DecidableEq

/-- The hand-rolled `contains` helper of part_001: scans every offset of `s`
and compares the slice of `substr.length` characters. -/
def goContains (s substr : String) : Bool :=
  (List.range (s.length - substr.length + 1)).any
    (fun i => ((s.toList.drop i).take substr.length) == substr.toList)

/-- First device satisfying `p` over the api/device double loop with breaks. -/
def findDevice (p : DeviceInfo → Bool) : List (List DeviceInfo) → Option DeviceInfo
  | [] => none
  | api :: rest =>
    match api.find? p with
    | some d => some d
    | none => findDevice p rest

theorem findDevice_some (p : DeviceInfo → Bool) (apis : List (List DeviceInfo))
    (d : DeviceInfo) (h : findDevice p apis = some d) : p d = true := by
  induction apis with
  | nil => simp [findDevice] at h
  | cons api rest ih =>
    unfold findDevice at h
    cases hf : api.find? p with
    | some d0 =>
      rw [hf] at h
      cases h
      exact List.find?_some hf
    | none =>
      rw [hf] at h
      exact ih h

/-- Marker predicate of the output-capture scan: name contains `"BlackHole"` or
`"Loopback"`; note there is no input-channel check. -/
def outputMarkerPred (d : DeviceInfo) : Bool :=
  goContains d.name "BlackHole" || goContains d.name "Loopback"

/-- Exact-name pass of `LoopbackRecorder.Start`. -/
def loopbackExactPred (label : String) (d : DeviceInfo) : Bool :=
  decide (0 < d.maxInputChannels) && d.name == label

/-- Substring pass of `LoopbackRecorder.Start`. -/
def loopbackSubstrPred (label : String) (d : DeviceInfo) : Bool :=
  decide (0 < d.maxInputChannels) && goContains d.name label

/-- Named-device pass of `OutputCaptureRecorder.Start` (exact or substring). -/
def outputNamePred (label : String) (d : DeviceInfo) : Bool :=
  decide (0 < d.maxInputChannels) && (d.name == label || goContains d.name label)

/-- Device selection of `LoopbackRecorder.Start`: exact pass, then (for a
non-empty label) substring pass; no default fallback. -/
def loopbackSelect (apis : List (List DeviceInfo)) (deviceName : String) :
    Option DeviceInfo :=
  match findDevice (loopbackExactPred deviceName) apis with
  | some d => some d
  | none =>
    if deviceName ≠ "" then findDevice (loopbackSubstrPred deviceName) apis
    else none

/-- Device selection of `OutputCaptureRecorder.Start`: loopback-marker scan
first, then (for a non-empty label) the named-device pass, then the host's
default input device. -/
def outputCaptureSelect (apis : List (List DeviceInfo)) (deviceName : String)
    (defaultInput : Option DeviceInfo) : Option DeviceInfo :=
  match findDevice outputMarkerPred apis with
  | some d => some d
  | none =>
    match (if deviceName ≠ "" then findDevice (outputNamePred deviceName) apis
      else none) with
    | some d => some d
    | none => defaultInput

inductive StartOutcome where
  | ok (d : DeviceInfo)
  | errNotFound
  | errNoInputChannels
deriving DecidableEq

/-- `LoopbackRecorder.Start` up to device selection: a nil selection yields the
"specified input device not found" error. -/
def loopbackStartSelect (apis : List (List DeviceInfo)) (deviceName : String) :
    StartOutcome :=
  match loopbackSelect apis deviceName with
  | none => .errNotFound
  | some d => .ok d

/-- `OutputCaptureRecorder.Start` up to device selection: a nil selection yields
the "no loopback device" error, and a selected device with zero input channels
yields the "no input channels" error. -/
def outputCaptureStartSelect (apis : List (List DeviceInfo)) (deviceName : String)
    (defaultInput : Option DeviceInfo) : StartOutcome :=
  match outputCaptureSelect apis deviceName defaultInput with
  | none => .errNotFound
  | some d => if d.maxInputChannels = 0 then .errNoInputChannels else .ok d

/-- C5: whenever the catalog holds a loopback-marker device, redirect/output-
capture selection picks the marker device even though an exact name match
exists; plain capture selection picks the exact name match (an input-capable
device named exactly the label) over any substring match. -/
theorem device_selection_precedence (apis : List (List DeviceInfo))
    (label : String) (dflt : Option DeviceInfo) (dm de : DeviceInfo)
    (hm : findDevice outputMarkerPred apis = some dm)
    (he : findDevice (loopbackExactPred label) apis = some de) :
    outputCaptureSelect apis label dflt = some dm ∧
    (goContains dm.name "BlackHole" || goContains dm.name "Loopback") = true ∧
    loopbackSelect apis label = some de ∧
    de.name = label ∧ 0 < de.maxInputChannels := by
  have hmp := findDevice_some _ _ _ hm
  have hep := findDevice_some _ _ _ he
  unfold loopbackExactPred at hep
  simp only [Bool.and_eq_true, decide_eq_true_eq, beq_iff_eq] at hep
  refine ⟨?_, hmp, ?_, hep.2, hep.1⟩
  · simp only [outputCaptureSelect, hm]
  · simp only [loopbackSelect, he]

/-- Witness for C5: a catalog with a BlackHole marker device, a substring match
and an exact match (all input-capable), label `"MacBook Mic"`. -/
theorem device_selection_precedence_witness :
    outputCaptureSelect
      [[⟨"BlackHole 2ch", 2, 2⟩, ⟨"External MacBook Mic Array", 2, 0⟩,
        ⟨"MacBook Mic", 2, 0⟩]] "MacBook Mic" none = some ⟨"BlackHole 2ch", 2, 2⟩ ∧
    (goContains "BlackHole 2ch" "BlackHole" || goContains "BlackHole 2ch" "Loopback")
      = true ∧
    loopbackSelect
      [[⟨"BlackHole 2ch", 2, 2⟩, ⟨"External MacBook Mic Array", 2, 0⟩,
        ⟨"MacBook Mic", 2, 0⟩]] "MacBook Mic" = some ⟨"MacBook Mic", 2, 0⟩ ∧
    (⟨"MacBook Mic", 2, 0⟩ : DeviceInfo).name = "MacBook Mic" ∧
    0 < (⟨"MacBook Mic", 2, 0⟩ : DeviceInfo).maxInputChannels :=
  device_selection_precedence _ "MacBook Mic" none _ _ (by decide) (by decide)

/-- Counterexample to C9: with the empty label ("use default") and a catalog
holding an input-capable device, `LoopbackRecorder.Start` does not fall back to
the host's default device — it fails with the not-found error even though a
device satisfies the capability requirement. -/
theorem loopback_no_default_fallback_counterexample :
    loopbackStartSelect [[⟨"Mic", 1, 0⟩]] "" = StartOutcome.errNotFound ∧
    0 < (⟨"Mic", 1, 0⟩ : DeviceInfo).maxInputChannels := by
  exact ⟨by decide, by decide⟩

/-- C9 (amended): only the output-capture recorder falls back to the host's
default input device when no pass selects a device (in particular for the empty
label); it then fails if that default is absent or has zero input channels,
even when another device satisfies the capability requirement.  The loopback
(plain capture) recorder performs no default fallback: its `Start` fails with a
not-found error whenever exact and substring matching select nothing. -/
theorem default_fallback_amended (apis : List (List DeviceInfo))
    (dflt : Option DeviceInfo)
    (hm : findDevice outputMarkerPred apis = none)
    (he : findDevice (loopbackExactPred "") apis = none) :
    outputCaptureSelect apis "" dflt = dflt ∧
    loopbackSelect apis "" = none ∧
    loopbackStartSelect apis "" = StartOutcome.errNotFound ∧
    (∀ d0, dflt = some d0 → d0.maxInputChannels = 0 →
      outputCaptureStartSelect apis "" dflt = StartOutcome.errNoInputChannels) ∧
    (dflt = none → outputCaptureStartSelect apis "" dflt = StartOutcome.errNotFound) := by
  have hsel : outputCaptureSelect apis "" dflt = dflt := by
    simp only [outputCaptureSelect, hm]
    simp
  have hloop : loopbackSelect apis "" = none := by
    simp only [loopbackSelect, he]
    simp
  refine ⟨hsel, hloop, ?_, ?_, ?_⟩
  · simp only [loopbackStartSelect, hloop]
  · intro d0 hd0 hz
    subst hd0
    simp only [outputCaptureStartSelect, hsel, hz]
    simp
  · intro hd
    subst hd
    simp only [outputCaptureStartSelect, hsel]

/-- Witness for C9 (amended): catalog `[["Mic"]]`, default input device a
zero-input-channel display device. -/
theorem default_fallback_amended_witness :
    outputCaptureSelect [[⟨"Mic", 1, 0⟩]] "" (some ⟨"Display Audio", 0, 2⟩)
      = some ⟨"Display Audio", 0, 2⟩ ∧
    loopbackSelect [[⟨"Mic", 1, 0⟩]] "" = none ∧
    loopbackStartSelect [[⟨"Mic", 1, 0⟩]] "" = StartOutcome.errNotFound ∧
    outputCaptureStartSelect [[⟨"Mic", 1, 0⟩]] "" (some ⟨"Display Audio", 0, 2⟩)
      = StartOutcome.errNoInputChannels := by
  have h := default_fallback_amended [[⟨"Mic", 1, 0⟩]]
    (some ⟨"Display Audio", 0, 2⟩) (by decide) (by decide)
  exact ⟨h.1, h.2.1, h.2.2.1, h.2.2.2.1 _ rfl rfl⟩

/-- C10: if the catalog lists any device whose name contains `"BlackHole"` or
`"Loopback"`, `OutputCaptureRecorder.Start` selects the first such device
regardless of the requested label and without checking its input-channel
capability; if that device has zero input channels, `Start` returns the
"no input channels" error rather than falling back to any other device. -/
theorem outputCapture_marker_selection (apis : List (List DeviceInfo))
    (label : String) (dflt : Option DeviceInfo) (d : DeviceInfo)
    (hm : findDevice outputMarkerPred apis = some d) :
    outputCaptureSelect apis label dflt = some d ∧
    (goContains d.name "BlackHole" || goContains d.name "Loopback") = true ∧
    (d.maxInputChannels = 0 →
      outputCaptureStartSelect apis label dflt = StartOutcome.errNoInputChannels) ∧
    (0 < d.maxInputChannels →
      outputCaptureStartSelect apis label dflt = StartOutcome.ok d) := by
  have hsel : outputCaptureSelect apis label dflt = some d := by
    simp only [outputCaptureSelect, hm]
  refine ⟨hsel, findDevice_some _ _ _ hm, ?_, ?_⟩
  · intro hz
    simp only [outputCaptureStartSelect, hsel, hz, if_pos]
  · intro hpos
    have hz : ¬ d.maxInputChannels = 0 := by omega
    simp only [outputCaptureStartSelect, hsel, hz, if_false]

/-- Witness for C10: a catalog whose only device is a zero-input-channel
BlackHole device, with an unrelated label. -/
theorem outputCapture_marker_selection_witness :
    outputCaptureSelect [[⟨"BlackHole 2ch", 0, 2⟩]] "Speakers" none
      = some ⟨"BlackHole 2ch", 0, 2⟩ ∧
    (goContains "BlackHole 2ch" "BlackHole" || goContains "BlackHole 2ch" "Loopback")
      = true ∧
    outputCaptureStartSelect [[⟨"BlackHole 2ch", 0, 2⟩]] "Speakers" none
      = StartOutcome.errNoInputChannels := by
  have h := outputCapture_marker_selection [[⟨"BlackHole 2ch", 0, 2⟩]]
    "Speakers" none ⟨"BlackHole 2ch", 0, 2⟩ (by decide)
  exact ⟨h.1, h.2.1, h.2.2.1 rfl⟩

/-! ### Send-path gating (`Session.Start` in part_000).  The send loop emits an
`input_audio_buffer.append` whenever `s.dc.ReadyState() == Open`; the
`session.update` control message is sent by `initializeSession`, which runs from
the data channel's `OnOpen` handler (a separate task).  The three events below
are the atomic steps of that system; the interleaving where the send loop runs
between the channel opening and the handler running is a valid execution. -/

inductive Msg where
  | sessionUpdate
  | audioAppend
deriving DecidableEq

structure SendState where
  dcOpen : Bool
  updateSent : Bool
  msgs : List Msg
deriving DecidableEq

inductive SendEv where
  | dcOpens
  | onOpenRuns
  | sendBatch
deriving DecidableEq

/-- One atomic step: the channel opening, the `OnOpen` handler running
`initializeSession`, or one send-loop iteration with a pending batch.  The
send-loop gate is exactly `ReadyState == Open` (part_000 line 529); it does not
consult whether the `session.update` has been sent. -/
def sendStep (s : SendState) : SendEv → SendState
  | .dcOpens => { s with dcOpen := true }
  | .onOpenRuns =>
    if s.dcOpen then
      { s with updateSent := true, msgs := s.msgs ++ [Msg.sessionUpdate] }
    else s
  | .sendBatch =>
    if s.dcOpen then { s with msgs := s.msgs ++ [Msg.audioAppend] }
    else s

def sendRun (s : SendState) : List SendEv → SendState
  | [] => s
  | e :: es => sendRun (sendStep s e) es

def sendInit : SendState := ⟨false, false, []⟩

/-- `true` iff some `audioAppend` occurs before any `sessionUpdate` in the
transcript. -/
def appendBeforeUpdate : List Msg → Bool
  | [] => false
  | Msg.sessionUpdate :: _ => false
  | Msg.audioAppend :: _ => true

/-- Counterexample to C6: in the execution where the data channel opens, the
send loop runs one iteration, and only then the `OnOpen` handler sends the
initial `session.update`, an `input_audio_buffer.append` is written to the
transport before the `session.update` — the gate is transport-open, not the
readiness signal. -/
theorem append_before_update_counterexample :
    (sendRun sendInit [SendEv.dcOpens, SendEv.sendBatch, SendEv.onOpenRuns]).msgs
      = [Msg.audioAppend, Msg.sessionUpdate] ∧
    appendBeforeUpdate
      (sendRun sendInit [SendEv.dcOpens, SendEv.sendBatch, SendEv.onOpenRuns]).msgs
      = true := by
  exact ⟨by decide, by decide⟩

/-- C6 (amended): the send loop gates an audio append only on the data channel
being open, independently of whether the initial `session.update` has been sent;
the `session.update` is emitted by the open handler, so it precedes audio only
when that handler runs before the first gated send-loop iteration. -/
theorem send_gate_amended (s : SendState) :
    (s.dcOpen = true →
      (sendStep s SendEv.sendBatch).msgs = s.msgs ++ [Msg.audioAppend]) ∧
    (s.dcOpen = false → sendStep s SendEv.sendBatch = s) ∧
    (sendStep { s with updateSent := true } SendEv.sendBatch).msgs.length
      = (sendStep { s with updateSent := false } SendEv.sendBatch).msgs.length ∧
    (s.dcOpen = true →
      (sendStep s SendEv.onOpenRuns).msgs = s.msgs ++ [Msg.sessionUpdate]) := by
  refine ⟨?_, ?_, ?_, ?_⟩
  · intro h
    simp [sendStep, h]
  · intro h
    simp [sendStep, h]
  · unfold sendStep
    dsimp only
    split <;> rfl
  · intro h
    simp [sendStep, h]

/-- Witness for C6 (amended): the open-channel, update-not-yet-sent state. -/
theorem send_gate_amended_witness :
    (sendStep ⟨true, false, []⟩ SendEv.sendBatch).msgs = [] ++ [Msg.audioAppend] ∧
    (sendStep ⟨true, false, []⟩ SendEv.onOpenRuns).msgs = [] ++ [Msg.sessionUpdate] :=
  ⟨(send_gate_amended ⟨true, false, []⟩).1 rfl,
   (send_gate_amended ⟨true, false, []⟩).2.2.2 rfl⟩

/-! ### Receive-path loop (`Session.localTrack` in part_000).  One loop
iteration either observes the stop signal (`done`), gets a `ReadRTP` error
(terminal only for EOF / "closed" errors), or gets a packet whose Opus decode
succeeds or fails.  On both clean exits the WAV header is patched with the
accumulated byte count before returning. -/

inductive ReadEv where
  | stopSignal
  | readErr (closedOrEOF : Bool)
  | packet (decoded : Option (List Nat))
deriving DecidableEq

inductive LoopStep where
  | exit (file : Option (List Nat))
  | continueLoop (file : Option (List Nat)) (total : Nat)
deriving DecidableEq

/-- One iteration of the `localTrack` receive loop over the audio file state
(`none` when file creation failed) and the running `totalAudioBytes`. -/
def localTrackStep (file : Option (List Nat)) (total : Nat) : ReadEv → LoopStep
  | .stopSignal => .exit (file.map (fun f => updateWavHeader f total))
  | .readErr true => .exit (file.map (fun f => updateWavHeader f total))
  | .readErr false => .continueLoop file total
  | .packet none => .continueLoop file total
  | .packet (some frame) =>
    .continueLoop (file.map (fun f => f ++ frame)) (total + frame.length)

/-- C7: the receive loop returns cleanly exactly on the stop signal or on a
transport-closed/end-of-stream read error, and on both exits the audio file (when
present) is finalized with `updateWavHeader` before returning; a non-terminal
read error and a decode failure leave the state unchanged and continue the loop,
and a decoded packet appends its bytes and continues — no event terminates the
task otherwise. -/
theorem localTrack_exit_paths (file : Option (List Nat)) (total : Nat) :
    (∀ ev : ReadEv, (∃ f, localTrackStep file total ev = LoopStep.exit f) ↔
      (ev = ReadEv.stopSignal ∨ ev = ReadEv.readErr true)) ∧
    localTrackStep file total ReadEv.stopSignal
      = LoopStep.exit (file.map (fun f => updateWavHeader f total)) ∧
    localTrackStep file total (ReadEv.readErr true)
      = LoopStep.exit (file.map (fun f => updateWavHeader f total)) ∧
    localTrackStep file total (ReadEv.readErr false)
      = LoopStep.continueLoop file total ∧
    localTrackStep file total (ReadEv.packet none)
      = LoopStep.continueLoop file total ∧
    (∀ frame, localTrackStep file total (ReadEv.packet (some frame))
      = LoopStep.continueLoop (file.map (fun f => f ++ frame))
        (total + frame.length)) := by
  refine ⟨?_, rfl, rfl, rfl, rfl, fun _ => rfl⟩
  intro ev
  cases ev with
  | stopSignal => simp [localTrackStep]
  | readErr closed =>
    cases closed with
    | true => simp [localTrackStep]
    | false => simp [localTrackStep]
  | packet decoded =>
    cases decoded with
    | none => simp [localTrackStep]
    | some frame => simp [localTrackStep]

/-! ### Send-path PCM conversion (`Session.Start` send loop, part_000 lines
533–561).  Samples are `float32` in the source; the arithmetic is modelled
exactly over `ℚ` (clamping and the `* 32767.0` scale are exact in this range;
Go's float-to-int conversion truncates toward zero).  `byte(x)` of an `int16`
keeps the low 8 bits of the two's-complement value, and `x >> 8` is an
arithmetic shift, i.e. flooring division by 256. -/

def clampSample (s : ℚ) : ℚ :=
  if s > 1 then 1 else if s < -1 then -1 else s

/-- Go's float→int conversion: truncation toward zero. -/
def truncToInt (q : ℚ) : Int := if 0 ≤ q then ⌊q⌋ else ⌈q⌉

/-- `int16(sample * 32767.0)` after the clamp. -/
def sampleToInt16 (s : ℚ) : Int := truncToInt (clampSample s * 32767)

/-- `byte(x)`: low 8 bits of the two's-complement representation. -/
def lowByte (x : Int) : Nat := (x % 256).toNat

/-- `byte(x >> 8)`: arithmetic shift right by 8, then low 8 bits. -/
def highByte (x : Int) : Nat := ((x / 256) % 256).toNat

/-- The `pcmBytes` buffer: for each sample the low byte at `i*2` and the high
byte at `i*2+1`, i.e. little-endian byte pairs in sample order. -/
def pcmBytesOf (samples : List ℚ) : List Nat :=
  samples.flatMap (fun s => [lowByte (sampleToInt16 s), highByte (sampleToInt16 s)])

/-- Standard base64 alphabet of `base64.StdEncoding`. -/
def base64Alphabet : List Char :=
  "ABCDEFGHIJKLMNOPQRSTUVWXYZabcdefghijklmnopqrstuvwxyz0123456789+/".toList

def b64Char (n : Nat) : Char := base64Alphabet.getD n 'A'

/-- RFC 4648 base64 of a byte list, with `=` padding. -/
def base64Chunks : List Nat → List Char
  | [] => []
  | [a] => [b64Char (a / 4), b64Char (a % 4 * 16), '=', '=']
  | [a, b] => [b64Char (a / 4), b64Char (a % 4 * 16 + b / 16), b64Char (b % 16 * 4), '=']
  | a :: b :: c :: rest =>
    b64Char (a / 4) :: b64Char (a % 4 * 16 + b / 16) ::
      b64Char (b % 16 * 4 + c / 64) :: b64Char (c % 64) :: base64Chunks rest

def base64Encode (bs : List Nat) : String := String.mk (base64Chunks bs)

/-- The `input_audio_buffer.append` JSON envelope produced by `json.Marshal` of
the event map (Go marshals map keys in sorted order: `audio` before `type`). -/
def appendEnvelope (audioB64 : String) : String :=
  "\x7b\"audio\":\"" ++ audioB64 ++ "\",\"type\":\"input_audio_buffer.append\"\x7d"

/-- The full text message written to the transport for one captured batch. -/
def sendLoopMessage (samples : List ℚ) : String :=
  appendEnvelope (base64Encode (pcmBytesOf samples))

theorem clampSample_bounds (s : ℚ) : -1 ≤ clampSample s ∧ clampSample s ≤ 1 := by
  unfold clampSample
  split_ifs with h1 h2
  · constructor <;> norm_num
  · constructor <;> norm_num
  · push_neg at h1 h2
    exact ⟨h2, h1⟩

theorem sampleToInt16_bounds (s : ℚ) :
    -32767 ≤ sampleToInt16 s ∧ sampleToInt16 s ≤ 32767 := by
  obtain ⟨hlo, hhi⟩ := clampSample_bounds s
  have hv1 : (-32767 : ℚ) ≤ clampSample s * 32767 := by nlinarith
  have hv2 : clampSample s * 32767 ≤ 32767 := by nlinarith
  unfold sampleToInt16 truncToInt
  split_ifs with h
  · constructor
    · exact Int.le_floor.mpr (by push_cast; linarith)
    · have := Int.floor_le_floor hv2
      have h32 : ⌊(32767 : ℚ)⌋ = 32767 := by norm_num
      omega
  · constructor
    · have := Int.ceil_le_ceil hv1
      have h32 : ⌈(-32767 : ℚ)⌉ = -32767 := by
        rw [Int.ceil_neg]
        norm_num
      omega
    · exact Int.ceil_le.mpr (by push_cast; linarith)

/-- C8: for every captured batch, the message written to the transport is the
`input_audio_buffer.append` JSON envelope around the base64 encoding of the PCM
byte stream; that stream holds two bytes per sample in sample order, low byte
first; and each sample's 16-bit value is the clamp of the sample to
`[-1, 1]` scaled by 32767 (truncated toward zero), which lies in
`[-32767, 32767]`, with the byte pair encoding it little-endian modulo 2^16. -/
theorem send_pcm_encoding :
    (∀ samples : List ℚ, sendLoopMessage samples =
      "\x7b\"audio\":\"" ++ base64Encode (pcmBytesOf samples) ++
      "\",\"type\":\"input_audio_buffer.append\"\x7d") ∧
    (∀ samples : List ℚ, pcmBytesOf samples =
      samples.flatMap
        (fun s => [lowByte (sampleToInt16 s), highByte (sampleToInt16 s)])) ∧
    (∀ samples : List ℚ, (pcmBytesOf samples).length = 2 * samples.length) ∧
    (∀ s : ℚ, -1 ≤ clampSample s ∧ clampSample s ≤ 1) ∧
    (∀ s : ℚ, sampleToInt16 s = truncToInt (clampSample s * 32767)) ∧
    (∀ s : ℚ, -32767 ≤ sampleToInt16 s ∧ sampleToInt16 s ≤ 32767) ∧
    (∀ s : ℚ, lowByte (sampleToInt16 s) < 256 ∧ highByte (sampleToInt16 s) < 256) ∧
    (∀ s : ℚ, (lowByte (sampleToInt16 s) : Int) +
      256 * (highByte (sampleToInt16 s) : Int) = sampleToInt16 s % 65536) := by
  have hbytes : ∀ x : Int, -32768 ≤ x → x ≤ 32767 →
      (lowByte x : Int) + 256 * (highByte x : Int) = x % 65536 ∧
      lowByte x < 256 ∧ highByte x < 256 := by
    intro x h1 h2
    have e1 := Int.emod_nonneg x (by norm_num : (256 : Int) ≠ 0)
    have e2 := Int.emod_lt_of_pos x (by norm_num : (0 : Int) < 256)
    have e3 := Int.emod_nonneg (x / 256) (by norm_num : (256 : Int) ≠ 0)
    have e4 := Int.emod_lt_of_pos (x / 256) (by norm_num : (0 : Int) < 256)
    have t1 : ((x % 256).toNat : Int) = x % 256 := Int.toNat_of_nonneg e1
    have t2 : (((x / 256) % 256).toNat : Int) = (x / 256) % 256 := Int.toNat_of_nonneg e3
    unfold lowByte highByte
    refine ⟨?_, ?_, ?_⟩ <;> omega
  refine ⟨fun _ => rfl, fun _ => rfl, ?_, clampSample_bounds, fun _ => rfl,
    sampleToInt16_bounds, ?_, ?_⟩
  · intro samples
    induction samples with
    | nil => rfl
    | cons a t ih =>
      simp only [pcmBytesOf, List.flatMap_cons, List.length_append] at ih ⊢
      simp only [List.length_cons, List.length_nil]
      omega
  · intro s
    obtain ⟨h1, h2⟩ := sampleToInt16_bounds s
    exact (hbytes _ (by omega) h2).2
  · intro s
    obtain ⟨h1, h2⟩ := sampleToInt16_bounds s
    exact (hbytes _ (by omega) h2).1

end VoxAudio
